import Mathlib

/-!
Shallow embedding of the authorization-scoped resource model and assignment
lifecycle of the apiV2 service, translated from `src/routes/assignments.ts`,
`src/routes/properties.ts` and the technicians route (`PATCH /api/technicians/:id`).

Statuses, roles and priorities are carried as `String`s, as in the source
(zod enums constrain them at parse time).  Timestamps are abstracted to `Nat`
(`now` is passed explicitly); zod format checks on datetime/uuid strings are
abstracted as always succeeding, since no modelled behaviour depends on the
textual format.  JSON `undefined` is `Option.none`; for the nullable
`supervisorId` payload field, `Option (Option String)` distinguishes
absent / null / set.
-/

namespace ApiV2

/-- Single quote character, used to build the error messages of the source
without apostrophes in string literals. -/
def sq : String := String.singleton (Char.ofNat 39)

/-- `{ userId, role }` identity context derived from the verified token
(`user.sub`, `user.role` in the handlers). -/
structure UserCtx where
  sub : String
  role : String
deriving Repr, DecidableEq

/-- The `Assignment` record as fetched by the PATCH handler, with the joined
`technician.technicianProfile.supervisorId`: `techProfile = none` models a
technician without a profile row, `some sid?` a profile whose `supervisorId`
is `sid?` (`none` = SQL NULL). -/
structure AssignmentRec where
  id : String
  propertyId : String
  technicianId : String
  status : String
  priority : String
  scheduledDate : Nat
  notes : Option String
  canceledReason : Option String
  canceledAt : Option Nat
  completedAt : Option Nat
  techProfile : Option (Option String)
deriving Repr, DecidableEq

/-- A PATCH /api/assignments/:id request body.  Every field is optional;
`none` is an absent key. -/
structure Payload where
  status : Option String := none
  priority : Option String := none
  scheduledDate : Option Nat := none
  technicianId : Option String := none
  propertyId : Option String := none
  notes : Option String := none
  canceledReason : Option String := none
  canceledAt : Option Nat := none
  completedAt : Option Nat := none
deriving Repr, DecidableEq

/-- Result of the PATCH handler: `notFound`/`forbidden`/`badRequest` mirror
the `notFound`/`forbidden`/`badRequest` reply helpers of `utils/errors.ts`,
`ok` carries the record returned (the updated row, or `existing` on the
idempotent-cancel path). -/
inductive PatchResult where
  | notFound (msg : String)
  | forbidden (msg : String)
  | badRequest (msg : String)
  | ok (a : AssignmentRec)
deriving Repr, DecidableEq

def msgAsgNotFound : String := "Assignment not found"
def msgTechNotFound : String := "Technician not found"
def msgInvalidBody : String := "Invalid request body"
def msgOwnOnly : String := "You can only update your own assignments"
def msgTeamOnly : String := "You can only update your team" ++ sq ++ "s assignments"
def msgTechCancel : String := "Technicians cannot cancel assignments"
def msgTechField (f : String) : String :=
  "Technicians cannot update the " ++ sq ++ f ++ sq ++ " field"
def msgSupField (f : String) : String :=
  "Supervisors cannot update the " ++ sq ++ f ++ sq ++ " field"
def msgInvalidTransition (cur new : String) : String :=
  "Invalid status transition from " ++ sq ++ cur ++ sq ++ " to " ++ sq ++ new ++ sq

/-- `normalizeStatus` from assignments.ts: maps the `canceled` spelling to
`cancelled`. -/
def normalizeStatus (status : String) : String :=
  if status = "canceled" then "cancelled" else status

/-- `normalizeRequestBody`: normalizes the `status` field when present. -/
def normalizeRequestBody (body : Payload) : Payload :=
  match body.status with
  | some s => { body with status := some (normalizeStatus s) }
  | none => body

/-- JS truthiness of an optional string field (`if (x)`): present and
non-empty. -/
def strTruthy : Option String → Bool
  | some s => s ≠ ""
  | none => false

/-- A zod enum check on an optional field: when present, the value must be
one of the listed literals. -/
def enumOk (vals : List String) : Option String → Prop
  | some s => s ∈ vals
  | none => True

instance (vals : List String) (o : Option String) : Decidable (enumOk vals o) :=
  match o with
  | some s => inferInstanceAs (Decidable (s ∈ vals))
  | none => .isTrue trivial

/-- `techUpdateSchema`: `status` limited to pending/in_progress/completed,
`notes` any string; unknown keys are stripped by zod, not rejected. -/
def techSchemaOk (b : Payload) : Prop :=
  enumOk ["pending", "in_progress", "completed"] b.status

/-- `adminUpdateSchema`: `status` one of the four statuses, `priority` one of
low/med/high; datetime/uuid format checks abstracted as succeeding. -/
def adminSchemaOk (b : Payload) : Prop :=
  enumOk ["pending", "in_progress", "completed", "cancelled"] b.status ∧
  enumOk ["low", "med", "high"] b.priority

/-- `supervisorUpdateSchema`: `status` may only be `cancelled`. -/
def supSchemaOk (b : Payload) : Prop :=
  enumOk ["cancelled"] b.status ∧
  enumOk ["low", "med", "high"] b.priority

instance : DecidablePred techSchemaOk := fun b => by
  unfold techSchemaOk; infer_instance

instance : DecidablePred adminSchemaOk := fun b => by
  unfold adminSchemaOk; infer_instance

instance : DecidablePred supSchemaOk := fun b => by
  unfold supSchemaOk; infer_instance

/-- The tech branch's forbidden-field loop: the first field of
priority, scheduledDate, technicianId, propertyId, canceledReason,
canceledAt present in the body, in declaration order. -/
def firstForbiddenTech (b : Payload) : Option String :=
  if b.priority.isSome then some "priority"
  else if b.scheduledDate.isSome then some "scheduledDate"
  else if b.technicianId.isSome then some "technicianId"
  else if b.propertyId.isSome then some "propertyId"
  else if b.canceledReason.isSome then some "canceledReason"
  else if b.canceledAt.isSome then some "canceledAt"
  else none

/-- The supervisor branch's forbidden-field loop over
technicianId, propertyId, completedAt. -/
def firstForbiddenSup (b : Payload) : Option String :=
  if b.technicianId.isSome then some "technicianId"
  else if b.propertyId.isSome then some "propertyId"
  else if b.completedAt.isSome then some "completedAt"
  else none

/-- `validTransitions` of the tech branch:
pending → in_progress → completed; completed and cancelled are dead ends,
and a status outside the table (`validTransitions[cur]?`) yields no targets. -/
def techValidTransitions : String → List String
  | "pending" => ["in_progress"]
  | "in_progress" => ["completed"]
  | _ => []

/-- The tech branch's `updateData`: status when present (with `completedAt`
stamped on completion), notes when present. -/
def applyTechUpdate (e : AssignmentRec) (b : Payload) (now : Nat) : AssignmentRec :=
  { e with
    status := match b.status with | some s => s | none => e.status
    completedAt := if b.status = some "completed" then some now else e.completedAt
    notes := match b.notes with | some n => some n | none => e.notes }

/-- The shared cancel path (admin/repair and supervisor branches): status to
`cancelled`, `canceledAt := now`, `completedAt` cleared, `canceledReason`
set only when the supplied value is truthy (non-empty). -/
def applyCancel (e : AssignmentRec) (b : Payload) (now : Nat) : AssignmentRec :=
  { e with
    status := "cancelled"
    canceledAt := some now
    completedAt := none
    canceledReason :=
      match b.canceledReason with
      | some r => if r = "" then e.canceledReason else some r
      | none => e.canceledReason }

/-- The admin/repair non-cancel `updateData`: truthy fields applied, `notes`
applied when present (the source checks `!== undefined` for notes only), and
`completedAt` stamped when moving to `completed` with no prior timestamp. -/
def applyAdminUpdate (e : AssignmentRec) (b : Payload) (now : Nat) : AssignmentRec :=
  { e with
    status := match b.status with | some s => if s = "" then e.status else s | none => e.status
    priority := match b.priority with | some p => if p = "" then e.priority else p | none => e.priority
    scheduledDate := match b.scheduledDate with | some d => d | none => e.scheduledDate
    technicianId := match b.technicianId with | some t => if t = "" then e.technicianId else t | none => e.technicianId
    notes := match b.notes with | some n => some n | none => e.notes
    completedAt :=
      if b.status = some "completed" ∧ e.completedAt = none then some now
      else e.completedAt }

/-- The supervisor non-cancel `updateData`: priority/scheduledDate when
truthy, notes when present. -/
def applySupUpdate (e : AssignmentRec) (b : Payload) : AssignmentRec :=
  { e with
    priority := match b.priority with | some p => if p = "" then e.priority else p | none => e.priority
    scheduledDate := match b.scheduledDate with | some d => d | none => e.scheduledDate
    notes := match b.notes with | some n => some n | none => e.notes }

/-- Lines 368-431: the TECH role section of the PATCH handler.  Receives the
normalized body. -/
def techBranch (e : AssignmentRec) (nb : Payload) (now : Nat) : PatchResult :=
  if nb.status = some "cancelled" then .forbidden msgTechCancel
  else if ¬ techSchemaOk nb then .badRequest msgInvalidBody
  else
    match firstForbiddenTech nb with
    | some f => .forbidden (msgTechField f)
    | none =>
      match nb.status with
      | some ns =>
        if ns ∈ techValidTransitions e.status then .ok (applyTechUpdate e nb now)
        else .badRequest (msgInvalidTransition e.status ns)
      | none => .ok (applyTechUpdate e nb now)

/-- Lines 451-473: cancel-vs-other dispatch shared by the admin/repair
branch after the technician lookup. -/
def adminCore (e : AssignmentRec) (nb : Payload) (now : Nat) : PatchResult :=
  if nb.status = some "cancelled" then
    if e.status = "cancelled" then .ok e
    else .ok (applyCancel e nb now)
  else .ok (applyAdminUpdate e nb now)

/-- Lines 434-491: the ADMIN / REPAIR role section.  `techExists` models the
`prisma.user.findUnique` lookup for a new `technicianId`. -/
def adminBranch (e : AssignmentRec) (techExists : String → Bool) (nb : Payload)
    (now : Nat) : PatchResult :=
  if ¬ adminSchemaOk nb then .badRequest msgInvalidBody
  else
    match nb.technicianId with
    | some t => if techExists t then adminCore e nb now else .notFound msgTechNotFound
    | none => adminCore e nb now

/-- Lines 493-541: the SUPERVISOR role section (also reached by any role
that is not tech/admin/repair). -/
def supBranch (e : AssignmentRec) (nb : Payload) (now : Nat) : PatchResult :=
  if ¬ supSchemaOk nb then .badRequest msgInvalidBody
  else
    match firstForbiddenSup nb with
    | some f => .forbidden (msgSupField f)
    | none =>
      if nb.status = some "cancelled" then
        if e.status = "cancelled" then .ok e
        else .ok (applyCancel e nb now)
      else .ok (applySupUpdate e nb)

/-- `!techProfile || techProfile.supervisorId !== user.sub` negated: the
technician of the assignment has a profile whose `supervisorId` equals `sub`. -/
def sameTeam (e : AssignmentRec) (sub : String) : Prop :=
  e.techProfile = some (some sub)

instance (e : AssignmentRec) (sub : String) : Decidable (sameTeam e sub) := by
  unfold sameTeam; infer_instance

/-- PATCH /api/assignments/:id (assignments.ts lines 329-541).  `existing?`
is the `findUnique` result for the id; `techExists` the user lookup used when
admin/repair reassigns; `now` the clock. -/
def patchAssignment (u : UserCtx) (existing? : Option AssignmentRec)
    (techExists : String → Bool) (body : Payload) (now : Nat) : PatchResult :=
  match existing? with
  | none => .notFound msgAsgNotFound
  | some e =>
    if u.role = "tech" ∧ e.technicianId ≠ u.sub then .forbidden msgOwnOnly
    else if u.role = "supervisor" ∧ ¬ sameTeam e u.sub then .forbidden msgTeamOnly
    else
      let nb := normalizeRequestBody body
      if u.role = "tech" then techBranch e nb now
      else if u.role = "admin" ∨ u.role = "repair" then adminBranch e techExists nb now
      else supBranch e nb now

/-! ### GET /api/assignments and GET /api/assignments/created where clauses -/

/-- Query string of GET /api/assignments.  All parameters optional strings,
as delivered by the querystring parser. -/
structure ListQuery where
  technicianId : Option String := none
  propertyId : Option String := none
  status : Option String := none
  priority : Option String := none
  includeCanceled : Option String := none
deriving Repr, DecidableEq

/-- A prisma status condition: `{ not: s }` or an equality filter. -/
inductive StatusCond where
  | eqS (s : String)
  | neS (s : String)
deriving Repr, DecidableEq

/-- The `where` object built by the list handlers, restricted to the fields
they set. `teamSupervisorId` stands for
`technician.technicianProfile.supervisorId`. -/
structure WhereA where
  status : Option StatusCond := none
  technicianId : Option String := none
  teamSupervisorId : Option String := none
  propertyId : Option String := none
  priority : Option String := none
deriving Repr, DecidableEq

/-- assignments.ts lines 83-118: the `where` clause of GET /api/assignments.
Cancelled rows are excluded unless `includeCanceled` is the string true; an explicit
status filter (normalized) overrides that; tech is pinned to own rows,
supervisor to the team plus an optional technician filter. -/
def buildListWhere (u : UserCtx) (q : ListQuery) : WhereA :=
  let base : Option StatusCond :=
    if q.includeCanceled = some "true" then none else some (.neS "cancelled")
  let tidSup : Option String × Option String :=
    if u.role = "tech" then (some u.sub, none)
    else if u.role = "supervisor" then (q.technicianId, some u.sub)
    else (q.technicianId, none)
  { status := match q.status with
      | some s => some (.eqS (normalizeStatus s))
      | none => base
    technicianId := tidSup.1
    teamSupervisorId := tidSup.2
    propertyId := q.propertyId
    priority := q.priority }

/-- assignments.ts lines 145-158: the `where` clause of
GET /api/assignments/created (no status filter parameter). -/
def buildCreatedWhere (u : UserCtx) (includeCanceled : Option String) : WhereA :=
  { status := if includeCanceled = some "true" then none else some (.neS "cancelled")
    teamSupervisorId := if u.role = "supervisor" then some u.sub else none }

def statusCondHolds : Option StatusCond → String → Bool
  | none, _ => true
  | some (.eqS s), st => st = s
  | some (.neS s), st => st ≠ s

/-- The non-status filters of a `where` object, evaluated against a row. -/
def restMatches (w : WhereA) (a : AssignmentRec) : Bool :=
  (match w.technicianId with | some t => a.technicianId = t | none => true) &&
  (match w.teamSupervisorId with | some s => a.techProfile = some (some s) | none => true) &&
  (match w.propertyId with | some p => a.propertyId = p | none => true) &&
  (match w.priority with | some p => a.priority = p | none => true)

/-- A row satisfies the whole `where` object. -/
def matchesWhere (w : WhereA) (a : AssignmentRec) : Bool :=
  statusCondHolds w.status a.status && restMatches w a

/-! ### PATCH /api/technicians/:id -/

/-- A `TechnicianProfile` row (fields relevant to the PATCH handler). -/
structure TProfile where
  supervisorId : Option String
  active : Bool
  name : Option String
  phone : Option String
  truckId : Option String
deriving Repr, DecidableEq

/-- The user row joined with its technician profile, as fetched by
`findUnique` in the technicians PATCH handler. -/
structure TechUserRec where
  id : String
  email : String
  role : String
  profile : Option TProfile
deriving Repr, DecidableEq

/-- `patchTechnicianSchema` body.  `supervisorId` is nullable-optional:
`none` absent, `some none` JSON null, `some (some s)` a user id. -/
structure TPayload where
  supervisorId : Option (Option String) := none
  active : Option Bool := none
  name : Option String := none
  phone : Option String := none
  truckId : Option String := none
deriving Repr, DecidableEq

inductive TResult where
  | notFoundT (msg : String)
  | forbiddenT (msg : String)
  | badRequestT (msg : String)
  | okT (id email role : String) (p : TProfile)
deriving Repr, DecidableEq

def msgOwnProfile : String := "You can only update your own profile"
def msgTechNoSup : String := "Technicians cannot update supervisorId or active status"
def msgSupScope : String :=
  "You can only update technicians assigned to you or unassigned technicians"
def msgClaimOnly : String := "You can only assign unassigned technicians to yourself"
def msgNoReassign : String := "You cannot assign your technicians to another supervisor"
def msgInsufficient : String := "Insufficient permissions"

/-- `z.string().min(1)` on an optional field: when present, non-empty. -/
def minOneOk : Option String → Prop
  | some n => n ≠ ""
  | none => True

instance (o : Option String) : Decidable (minOneOk o) :=
  match o with
  | some n => inferInstanceAs (Decidable (n ≠ ""))
  | none => .isTrue trivial

/-- `patchTechnicianSchema`: `name` requires `min(1)`; the uuid format check
on `supervisorId` is abstracted as succeeding. -/
def tSchemaOk (b : TPayload) : Prop :=
  minOneOk b.name

instance : DecidablePred tSchemaOk := fun b => by
  unfold tSchemaOk; infer_instance

/-- Line 616: an unassigned tech's `supervisorId` may only be set to the
claiming supervisor own id. -/
def claimBlocked (sub : String) (bsup : Option (Option String)) : Bool :=
  match bsup with
  | some v => v ≠ some sub
  | none => false

/-- Lines 622-625: an owned tech's `supervisorId` may only be set to the
own id of the supervisor or released to null. -/
def reassignBlocked (sub : String) (bsup : Option (Option String)) : Bool :=
  match bsup with
  | some v => v ≠ none ∧ v ≠ some sub
  | none => false

/-- A prisma `update` whose `data` passes only name/phone/truckId (the tech
branch); `none` payload entries are `undefined` and skipped. -/
def applyTProfileBasic (p : TProfile) (b : TPayload) : TProfile :=
  { p with
    name := match b.name with | some n => some n | none => p.name
    phone := match b.phone with | some n => some n | none => p.phone
    truckId := match b.truckId with | some n => some n | none => p.truckId }

/-- A prisma `update` passing all five fields (supervisor and admin/repair
branches); `some none` sets `supervisorId` to NULL. -/
def applyTProfileFull (p : TProfile) (b : TPayload) : TProfile :=
  { applyTProfileBasic p b with
    supervisorId := match b.supervisorId with | some v => v | none => p.supervisorId
    active := match b.active with | some a => a | none => p.active }

/-- PATCH /api/technicians/:id.  `target?` is the `findUnique` result for the
path id (the route returns NotFound when the user or its profile is
missing). -/
def patchTechnician (u : UserCtx) (target? : Option TechUserRec)
    (body : TPayload) : TResult :=
  if ¬ tSchemaOk body then .badRequestT msgInvalidBody
  else
    match target? with
    | none => .notFoundT msgTechNotFound
    | some tu =>
      match tu.profile with
      | none => .notFoundT msgTechNotFound
      | some p =>
        if u.role = "tech" then
          if tu.id ≠ u.sub then .forbiddenT msgOwnProfile
          else if body.supervisorId ≠ none ∨ body.active ≠ none then
            .forbiddenT msgTechNoSup
          else .okT tu.id tu.email tu.role (applyTProfileBasic p body)
        else if u.role = "supervisor" then
          if ¬ (p.supervisorId = some u.sub) ∧ ¬ (p.supervisorId = none) then
            .forbiddenT msgSupScope
          else if p.supervisorId = none ∧ claimBlocked u.sub body.supervisorId then
            .forbiddenT msgClaimOnly
          else if p.supervisorId = some u.sub ∧ reassignBlocked u.sub body.supervisorId then
            .forbiddenT msgNoReassign
          else .okT tu.id tu.email tu.role (applyTProfileFull p body)
        else if u.role = "repair" ∨ u.role = "admin" then
          .okT tu.id tu.email tu.role (applyTProfileFull p body)
        else .forbiddenT msgInsufficient

/-! ### Concrete fixtures (shared by witnesses and counterexamples) -/

/-- Supervisor S1. -/
def supS1 : UserCtx := ⟨"S1", "supervisor"⟩

/-- An admin. -/
def admA : UserCtx := ⟨"A0", "admin"⟩

/-- Technician T1 (owner of the sample assignments). -/
def techT1 : UserCtx := ⟨"T1", "tech"⟩

/-- A pending assignment of T1, whose profile reports supervisor S1. -/
def asgBase : AssignmentRec :=
  { id := "A1", propertyId := "P1", technicianId := "T1", status := "pending"
    priority := "med", scheduledDate := 0, notes := none, canceledReason := none
    canceledAt := none, completedAt := none, techProfile := some (some "S1") }

/-- `asgBase` completed at time 5. -/
def asgCompleted : AssignmentRec :=
  { asgBase with status := "completed", completedAt := some 5 }

/-- `asgBase` cancelled at time 3. -/
def asgCancelled : AssignmentRec :=
  { asgBase with status := "cancelled", canceledAt := some 3 }

/-- An assignment whose technician reports to S2, outside the team of S1. -/
def asgOtherTeam : AssignmentRec :=
  { asgBase with techProfile := some (some "S2") }

/-- A user-lookup collaborator under which every technician id exists. -/
def anyTech : String → Bool := fun _ => true

/-! ### Dispatch lemmas for the PATCH handler -/

theorem patch_tech_eq (sub : String) (e : AssignmentRec) (te : String → Bool)
    (b : Payload) (n : Nat) (h : e.technicianId = sub) :
    patchAssignment ⟨sub, "tech"⟩ (some e) te b n
      = techBranch e (normalizeRequestBody b) n := by
  simp [patchAssignment, h]

theorem patch_admin_eq (sub role : String) (e : AssignmentRec) (te : String → Bool)
    (b : Payload) (n : Nat) (h : role = "admin" ∨ role = "repair") :
    patchAssignment ⟨sub, role⟩ (some e) te b n
      = adminBranch e te (normalizeRequestBody b) n := by
  rcases h with h | h <;> subst h <;> simp [patchAssignment]

theorem patch_sup_eq (sub : String) (e : AssignmentRec) (te : String → Bool)
    (b : Payload) (n : Nat) (h : sameTeam e sub) :
    patchAssignment ⟨sub, "supervisor"⟩ (some e) te b n
      = supBranch e (normalizeRequestBody b) n := by
  simp [patchAssignment, h]

/-! ### Branch characterization lemmas -/

theorem adminBranch_eq_core (e : AssignmentRec) (te : String → Bool) (nb : Payload)
    (n : Nat) (hsch : adminSchemaOk nb)
    (hte : ∀ t, nb.technicianId = some t → te t = true) :
    adminBranch e te nb n = adminCore e nb n := by
  unfold adminBranch
  rw [if_neg (by simpa using hsch)]
  cases h : nb.technicianId with
  | none => rfl
  | some t => simp [hte t h]

theorem adminCore_cancel_idem (e : AssignmentRec) (nb : Payload) (n : Nat)
    (hst : nb.status = some "cancelled") (he : e.status = "cancelled") :
    adminCore e nb n = .ok e := by
  unfold adminCore
  rw [if_pos hst, if_pos he]

theorem adminCore_cancel (e : AssignmentRec) (nb : Payload) (n : Nat)
    (hst : nb.status = some "cancelled") (he : e.status ≠ "cancelled") :
    adminCore e nb n = .ok (applyCancel e nb n) := by
  unfold adminCore
  rw [if_pos hst, if_neg he]

theorem adminCore_nocancel (e : AssignmentRec) (nb : Payload) (n : Nat)
    (hst : nb.status ≠ some "cancelled") :
    adminCore e nb n = .ok (applyAdminUpdate e nb n) := by
  unfold adminCore
  rw [if_neg hst]

theorem supBranch_eq_core (e : AssignmentRec) (nb : Payload) (n : Nat)
    (hsch : supSchemaOk nb) (hff : firstForbiddenSup nb = none) :
    supBranch e nb n
      = (if nb.status = some "cancelled" then
           if e.status = "cancelled" then .ok e else .ok (applyCancel e nb n)
         else .ok (applySupUpdate e nb)) := by
  unfold supBranch
  rw [if_neg (by simpa using hsch), hff]

theorem techBranch_cancel (e : AssignmentRec) (nb : Payload) (n : Nat)
    (hst : nb.status = some "cancelled") :
    techBranch e nb n = .forbidden msgTechCancel := by
  unfold techBranch
  rw [if_pos hst]

/-- Status of the normalized body after the two spellings of a cancel. -/
theorem normalize_cancel_status (body : Payload)
    (h : body.status = some "cancelled" ∨ body.status = some "canceled") :
    (normalizeRequestBody body).status = some "cancelled" := by
  rcases h with h | h <;> simp [normalizeRequestBody, h, normalizeStatus]

/-- Normalization touches only the `status` field. -/
theorem normalize_preserves_rest (body : Payload) :
    (normalizeRequestBody body).priority = body.priority ∧
    (normalizeRequestBody body).scheduledDate = body.scheduledDate ∧
    (normalizeRequestBody body).technicianId = body.technicianId ∧
    (normalizeRequestBody body).propertyId = body.propertyId ∧
    (normalizeRequestBody body).notes = body.notes ∧
    (normalizeRequestBody body).canceledReason = body.canceledReason ∧
    (normalizeRequestBody body).canceledAt = body.canceledAt ∧
    (normalizeRequestBody body).completedAt = body.completedAt := by
  unfold normalizeRequestBody
  cases body.status <;> simp

/-! ### C1 -/

/-- C1 counterexample: supervisor S1 sends an (empty) mutation payload for an
assignment whose technician reports to S2; the handler answers
`Forbidden` with the team-scope message, not `NotFound`
as the claim states — out-of-scope assignments are revealed as existing. -/
theorem c1_counterexample :
    patchAssignment supS1 (some asgOtherTeam) anyTech {} 0
      = .forbidden msgTeamOnly := by decide

/-- C1 (amended): for every supervisor identity `s1` and every assignment
whose technician `supervisorId` is not `s1.userId` (including null or no
profile), a mutation request by `s1` returns `Forbidden` with the
team-scope message, for every payload — out-of-scope assignments are
distinguishable from absent ones. -/
theorem c1_out_of_scope_is_forbidden (sub : String) (e : AssignmentRec)
    (te : String → Bool) (body : Payload) (now : Nat)
    (h : ¬ sameTeam e sub) :
    patchAssignment ⟨sub, "supervisor"⟩ (some e) te body now
      = .forbidden msgTeamOnly := by
  simp [patchAssignment, h]

/-- Witness for `c1_out_of_scope_is_forbidden` at S1 against the
S2-team assignment. -/
theorem c1_out_of_scope_is_forbidden_witness :
    ¬ sameTeam asgOtherTeam "S1" ∧
      patchAssignment ⟨"S1", "supervisor"⟩ (some asgOtherTeam) anyTech
        { notes := some "hi" } 3 = .forbidden msgTeamOnly :=
  ⟨by decide, c1_out_of_scope_is_forbidden "S1" asgOtherTeam anyTech
    { notes := some "hi" } 3 (by decide)⟩

/-! ### C2 -/

/-- C2 counterexample: an admin sets `status := pending` on a completed
assignment whose `completedAt = some 5`; the result still carries
`completedAt = some 5`, not null — the claimed `completedAt ↔ completed`
invariant is broken by the update. -/
theorem c2_counterexample :
    patchAssignment admA (some asgCompleted) anyTech { status := some "pending" } 9
        = .ok { asgCompleted with status := "pending" } ∧
      ({ asgCompleted with status := "pending" } : AssignmentRec).completedAt = some 5 ∧
      ({ asgCompleted with status := "pending" } : AssignmentRec).status ≠ "completed" := by
  refine ⟨by decide, by decide, by decide⟩

/-- C2 (amended): an admin or repair update whose (normalized) target status
is neither `completed` nor `cancelled` leaves `completedAt` exactly as it
was — in particular still set when it was set, so the
`completedAt ↔ status = completed` invariant is not preserved by such
updates. -/
theorem c2_admin_demotion_keeps_completedAt (sub role : String) (e : AssignmentRec)
    (te : String → Bool) (body : Payload) (now : Nat) (s : String)
    (hrole : role = "admin" ∨ role = "repair")
    (hs : (normalizeRequestBody body).status = some s)
    (hs1 : s ≠ "completed") (hs2 : s ≠ "cancelled") :
    ∀ a', patchAssignment ⟨sub, role⟩ (some e) te body now = .ok a' →
      a'.completedAt = e.completedAt := by
  intro a' h
  rw [patch_admin_eq sub role e te body now hrole] at h
  set nb := normalizeRequestBody body with hnb
  have hne : nb.status ≠ some "cancelled" := by
    rw [hs]; intro hc; exact hs2 (by injection hc)
  unfold adminBranch at h
  split_ifs at h
  revert h
  cases htid : nb.technicianId with
  | none =>
    intro h
    rw [adminCore_nocancel e nb now hne] at h
    injection h with h
    subst h
    simp [applyAdminUpdate, hs, hs1]
  | some t =>
    intro h
    simp only [htid] at h
    split_ifs at h
    rw [adminCore_nocancel e nb now hne] at h
    injection h with h
    subst h
    simp [applyAdminUpdate, hs, hs1]

/-- Witness for `c2_admin_demotion_keeps_completedAt`: the concrete demotion
of the counterexample. -/
theorem c2_admin_demotion_keeps_completedAt_witness :
    (normalizeRequestBody { status := some "pending" } : Payload).status = some "pending" ∧
      ({ asgCompleted with status := "pending" } : AssignmentRec).completedAt
        = asgCompleted.completedAt :=
  ⟨by decide,
    c2_admin_demotion_keeps_completedAt "A0" "admin" asgCompleted anyTech
      { status := some "pending" } 9 "pending" (Or.inl rfl) (by decide)
      (by decide) (by decide) { asgCompleted with status := "pending" } (by decide)⟩

/-! ### C3 -/

/-- C3 counterexample: supervisor S1 cancels the completed own-team
assignment and the handler accepts it (`.ok` with status `cancelled`),
whereas the claim says every supervisor status change on a completed
assignment is rejected. -/
theorem c3_counterexample :
    patchAssignment supS1 (some asgCompleted) anyTech { status := some "cancelled" } 7
      = .ok
        { asgCompleted with
          status := "cancelled", canceledAt := some 7, completedAt := none } := by
  decide

/-- C3 (amended): on a completed assignment, a supervisor status change is
rejected unless its target is `cancelled` — a supervisor may cancel a
completed own-team assignment; a tech status change is always rejected;
admin and repair may set any status by direct override. -/
theorem c3_completed_status_changes (sub : String) (e : AssignmentRec)
    (te : String → Bool) (now : Nat)
    (hcomp : e.status = "completed") (hteam : sameTeam e sub) :
    (∀ body s, (normalizeRequestBody body).status = some s → s ≠ "cancelled" →
        patchAssignment ⟨sub, "supervisor"⟩ (some e) te body now
          = .badRequest msgInvalidBody)
  ∧ (∀ body, (normalizeRequestBody body).status = some "cancelled" →
        supSchemaOk (normalizeRequestBody body) →
        firstForbiddenSup (normalizeRequestBody body) = none →
        patchAssignment ⟨sub, "supervisor"⟩ (some e) te body now
          = .ok (applyCancel e (normalizeRequestBody body) now))
  ∧ (∀ body s a', (normalizeRequestBody body).status = some s →
        patchAssignment ⟨e.technicianId, "tech"⟩ (some e) te body now ≠ .ok a')
  ∧ (∀ role s, (role = "admin" ∨ role = "repair") →
        (s = "pending" ∨ s = "in_progress" ∨ s = "completed" ∨ s = "cancelled") →
        ∃ a', patchAssignment ⟨sub, role⟩ (some e) te { status := some s } now
            = .ok a' ∧ a'.status = s) := by
  refine ⟨?_, ?_, ?_, ?_⟩
  · intro body s hs hsne
    rw [patch_sup_eq sub e te body now hteam]
    unfold supBranch
    rw [if_pos]
    intro hsch
    have h1 := hsch.1
    rw [hs] at h1
    simp [enumOk] at h1
    exact hsne h1
  · intro body hst hsch hff
    rw [patch_sup_eq sub e te body now hteam,
      supBranch_eq_core e _ now hsch hff, if_pos hst,
      if_neg (by rw [hcomp]; decide)]
  · intro body s a' hs h
    rw [patch_tech_eq e.technicianId e te body now rfl] at h
    unfold techBranch at h
    by_cases hc : (normalizeRequestBody body).status = some "cancelled"
    · rw [if_pos hc] at h
      exact PatchResult.noConfusion h
    · rw [if_neg hc] at h
      split_ifs at h
      rcases hffc : firstForbiddenTech (normalizeRequestBody body) with _ | f <;>
        simp only [hffc] at h
      · simp only [hs, hcomp] at h
        simp [techValidTransitions] at h
      · exact PatchResult.noConfusion h
  · intro role s hrole hs
    rw [patch_admin_eq sub role e te _ now hrole]
    rcases hs with hs | hs | hs | hs <;> subst hs
    · exact ⟨applyAdminUpdate e { status := some "pending" } now,
        by rw [show normalizeRequestBody { status := some "pending" }
                 = ({ status := some "pending" } : Payload) from by decide,
             adminBranch_eq_core _ _ _ _ (by decide) (by intro t ht; cases ht),
             adminCore_nocancel _ _ _ (by decide)], by simp [applyAdminUpdate]⟩
    · exact ⟨applyAdminUpdate e { status := some "in_progress" } now,
        by rw [show normalizeRequestBody { status := some "in_progress" }
                 = ({ status := some "in_progress" } : Payload) from by decide,
             adminBranch_eq_core _ _ _ _ (by decide) (by intro t ht; cases ht),
             adminCore_nocancel _ _ _ (by decide)], by simp [applyAdminUpdate]⟩
    · exact ⟨applyAdminUpdate e { status := some "completed" } now,
        by rw [show normalizeRequestBody { status := some "completed" }
                 = ({ status := some "completed" } : Payload) from by decide,
             adminBranch_eq_core _ _ _ _ (by decide) (by intro t ht; cases ht),
             adminCore_nocancel _ _ _ (by decide)], by simp [applyAdminUpdate]⟩
    · exact ⟨applyCancel e { status := some "cancelled" } now,
        by rw [show normalizeRequestBody { status := some "cancelled" }
                 = ({ status := some "cancelled" } : Payload) from by decide,
             adminBranch_eq_core _ _ _ _ (by decide) (by intro t ht; cases ht),
             adminCore_cancel _ _ _ rfl (by rw [hcomp]; decide)], rfl⟩

/-- Witness for `c3_completed_status_changes`: instantiates the second and
fourth conjunct at the completed assignment of S1. -/
theorem c3_completed_status_changes_witness :
    asgCompleted.status = "completed" ∧ sameTeam asgCompleted "S1" ∧
      patchAssignment ⟨"S1", "supervisor"⟩ (some asgCompleted) anyTech
        { status := some "cancelled" } 7
        = .ok (applyCancel asgCompleted
            (normalizeRequestBody { status := some "cancelled" }) 7) :=
  ⟨by decide, by decide,
    (c3_completed_status_changes "S1" asgCompleted anyTech 7 (by decide)
        (by decide)).2.1 { status := some "cancelled" } (by decide) (by decide)
      (by decide)⟩

/-! ### C4 -/

/-- C4: a tech mutation on an own assignment whose payload target status is
`cancelled` (in either spelling, i.e. after normalization) is answered
`Forbidden("Technicians cannot cancel assignments")` — for every current
status and every remaining payload content, hence before schema validation,
the forbidden-field loop and the transition table. -/
theorem c4_tech_cancel_forbidden (sub : String) (e : AssignmentRec)
    (te : String → Bool) (body : Payload) (now : Nat)
    (hown : e.technicianId = sub)
    (hst : body.status = some "cancelled" ∨ body.status = some "canceled") :
    patchAssignment ⟨sub, "tech"⟩ (some e) te body now
      = .forbidden msgTechCancel := by
  rw [patch_tech_eq sub e te body now hown]
  exact techBranch_cancel e _ now (normalize_cancel_status body hst)

/-- Witness for `c4_tech_cancel_forbidden`: T1 cancels the own pending
assignment with the `canceled` spelling and an otherwise-illegal field. -/
theorem c4_tech_cancel_forbidden_witness :
    asgBase.technicianId = "T1" ∧
      patchAssignment ⟨"T1", "tech"⟩ (some asgBase) anyTech
        { status := some "canceled", priority := some "high" } 2
        = .forbidden msgTechCancel :=
  ⟨by decide,
    c4_tech_cancel_forbidden "T1" asgBase anyTech
      { status := some "canceled", priority := some "high" } 2 (by decide)
      (Or.inr (by decide))⟩

/-! ### C5 -/

/-- C5: on an already-cancelled assignment, an otherwise well-formed cancel
request (either spelling) by admin, repair, or an own-team supervisor
returns the current record unchanged — no error, no new `canceledAt`, no
field modified.  Well-formed means: the body passes the update
schema, a reassigned `technicianId` exists (admin/repair), and no
supervisor-forbidden field is present (supervisor). -/
theorem c5_cancel_idempotent (u : UserCtx) (e : AssignmentRec)
    (te : String → Bool) (body : Payload) (now : Nat)
    (hcan : e.status = "cancelled")
    (hst : body.status = some "cancelled" ∨ body.status = some "canceled")
    (hrole : ((u.role = "admin" ∨ u.role = "repair")
        ∧ adminSchemaOk (normalizeRequestBody body)
        ∧ (∀ t, body.technicianId = some t → te t = true))
      ∨ (u.role = "supervisor" ∧ sameTeam e u.sub
        ∧ supSchemaOk (normalizeRequestBody body)
        ∧ firstForbiddenSup (normalizeRequestBody body) = none)) :
    patchAssignment u (some e) te body now = .ok e := by
  have hnst := normalize_cancel_status body hst
  rcases hrole with ⟨hr, hsch, hte⟩ | ⟨hr, hteam, hsch, hff⟩
  · obtain ⟨sub, role⟩ := u
    simp only at hr hte
    rw [patch_admin_eq sub role e te body now hr,
      adminBranch_eq_core e te _ now hsch
        (by intro t ht
            exact hte t (by rw [← (normalize_preserves_rest body).2.2.1]; exact ht)),
      adminCore_cancel_idem e _ now hnst hcan]
  · obtain ⟨sub, role⟩ := u
    simp only at hr hteam
    subst hr
    rw [patch_sup_eq sub e te body now hteam,
      supBranch_eq_core e _ now hsch hff, if_pos hnst, if_pos hcan]

/-- Witness for `c5_cancel_idempotent`: S1 re-cancels the cancelled
assignment with a fresh reason; the stored record comes back unchanged. -/
theorem c5_cancel_idempotent_witness :
    patchAssignment supS1 (some asgCancelled) anyTech
      { status := some "canceled", canceledReason := some "again" } 11
      = .ok asgCancelled :=
  c5_cancel_idempotent supS1 asgCancelled anyTech
    { status := some "canceled", canceledReason := some "again" } 11 (by decide)
    (Or.inr (by decide)) (Or.inr ⟨by decide, by decide, by decide, by decide⟩)

/-! ### Inversion lemmas: the shape of every `ok` result -/

theorem techBranch_ok_shape (e : AssignmentRec) (nb : Payload) (n : Nat)
    (a' : AssignmentRec) (h : techBranch e nb n = .ok a') :
    a' = applyTechUpdate e nb n ∧ nb.status ≠ some "cancelled" := by
  unfold techBranch at h
  by_cases hc : nb.status = some "cancelled"
  · rw [if_pos hc] at h
    exact PatchResult.noConfusion h
  · rw [if_neg hc] at h
    refine ⟨?_, hc⟩
    by_cases hsch : techSchemaOk nb
    · rw [if_neg (not_not_intro hsch)] at h
      rcases hff : firstForbiddenTech nb with _ | f <;> simp only [hff] at h
      · rcases hst : nb.status with _ | ns <;> simp only [hst] at h
        · injection h with h
          exact h.symm
        · by_cases htr : ns ∈ techValidTransitions e.status
          · rw [if_pos htr] at h
            injection h with h
            exact h.symm
          · rw [if_neg htr] at h
            exact PatchResult.noConfusion h
      · exact PatchResult.noConfusion h
    · rw [if_pos hsch] at h
      exact PatchResult.noConfusion h

theorem adminCore_ok_shape (e : AssignmentRec) (nb : Payload) (n : Nat)
    (a' : AssignmentRec) (h : adminCore e nb n = .ok a') :
    (nb.status = some "cancelled"
      ∧ (a' = e ∧ e.status = "cancelled" ∨ a' = applyCancel e nb n))
    ∨ (a' = applyAdminUpdate e nb n ∧ nb.status ≠ some "cancelled") := by
  unfold adminCore at h
  by_cases hc : nb.status = some "cancelled"
  · rw [if_pos hc] at h
    left
    refine ⟨hc, ?_⟩
    by_cases he : e.status = "cancelled"
    · rw [if_pos he] at h
      injection h with h
      exact Or.inl ⟨h.symm, he⟩
    · rw [if_neg he] at h
      injection h with h
      exact Or.inr h.symm
  · rw [if_neg hc] at h
    injection h with h
    exact Or.inr ⟨h.symm, hc⟩

theorem adminBranch_ok_shape (e : AssignmentRec) (te : String → Bool) (nb : Payload)
    (n : Nat) (a' : AssignmentRec) (h : adminBranch e te nb n = .ok a') :
    (nb.status = some "cancelled"
      ∧ (a' = e ∧ e.status = "cancelled" ∨ a' = applyCancel e nb n))
    ∨ (a' = applyAdminUpdate e nb n ∧ nb.status ≠ some "cancelled") := by
  unfold adminBranch at h
  by_cases hsch : adminSchemaOk nb
  · rw [if_neg (not_not_intro hsch)] at h
    rcases htid : nb.technicianId with _ | t <;> simp only [htid] at h
    · exact adminCore_ok_shape e nb n a' h
    · by_cases hte : te t = true
      · rw [if_pos hte] at h
        exact adminCore_ok_shape e nb n a' h
      · rw [if_neg hte] at h
        exact PatchResult.noConfusion h
  · rw [if_pos hsch] at h
    exact PatchResult.noConfusion h

theorem supBranch_ok_shape (e : AssignmentRec) (nb : Payload) (n : Nat)
    (a' : AssignmentRec) (h : supBranch e nb n = .ok a') :
    (nb.status = some "cancelled"
      ∧ (a' = e ∧ e.status = "cancelled" ∨ a' = applyCancel e nb n))
    ∨ (a' = applySupUpdate e nb ∧ nb.status ≠ some "cancelled") := by
  unfold supBranch at h
  by_cases hsch : supSchemaOk nb
  · rw [if_neg (not_not_intro hsch)] at h
    rcases hff : firstForbiddenSup nb with _ | f <;> simp only [hff] at h
    · by_cases hc : nb.status = some "cancelled"
      · rw [if_pos hc] at h
        left
        refine ⟨hc, ?_⟩
        by_cases he : e.status = "cancelled"
        · rw [if_pos he] at h
          injection h with h
          exact Or.inl ⟨h.symm, he⟩
        · rw [if_neg he] at h
          injection h with h
          exact Or.inr h.symm
      · rw [if_neg hc] at h
        injection h with h
        exact Or.inr ⟨h.symm, hc⟩
    · exact PatchResult.noConfusion h
  · rw [if_pos hsch] at h
    exact PatchResult.noConfusion h

/-- Every successful PATCH result is one of the four update shapes of the
source (tech update, idempotent cancel, cancel application, admin update,
supervisor update), with cancels exactly when the normalized target status
is `cancelled`. -/
theorem patch_ok_shapes (u : UserCtx) (e : AssignmentRec) (te : String → Bool)
    (body : Payload) (now : Nat) (a' : AssignmentRec)
    (h : patchAssignment u (some e) te body now = .ok a') :
    (a' = applyTechUpdate e (normalizeRequestBody body) now
      ∧ (normalizeRequestBody body).status ≠ some "cancelled")
    ∨ ((normalizeRequestBody body).status = some "cancelled"
        ∧ (a' = e ∧ e.status = "cancelled"
           ∨ a' = applyCancel e (normalizeRequestBody body) now))
    ∨ (a' = applyAdminUpdate e (normalizeRequestBody body) now
        ∧ (normalizeRequestBody body).status ≠ some "cancelled")
    ∨ (a' = applySupUpdate e (normalizeRequestBody body)
        ∧ (normalizeRequestBody body).status ≠ some "cancelled") := by
  simp only [patchAssignment] at h
  split_ifs at h
  · exact Or.inl (techBranch_ok_shape e _ now a' h)
  · rcases adminBranch_ok_shape e te _ now a' h with hc | hd
    · exact Or.inr (Or.inl hc)
    · exact Or.inr (Or.inr (Or.inl hd))
  · rcases supBranch_ok_shape e _ now a' h with hc | hd
    · exact Or.inr (Or.inl hc)
    · exact Or.inr (Or.inr (Or.inr hd))

/-! ### C6 -/

/-- C6 counterexample: an admin cancels the pending assignment supplying
`canceledReason := ""`.  The claim says a supplied reason is set; the code's
truthiness check drops the empty string, so the stored `canceledReason`
stays `none`. -/
theorem c6_counterexample :
    patchAssignment admA (some asgBase) anyTech
        { status := some "cancelled", canceledReason := some "" } 5
        = .ok { asgBase with status := "cancelled", canceledAt := some 5 } ∧
      ({ status := some "cancelled", canceledReason := some "" } : Payload).canceledReason
        = some "" ∧
      ({ asgBase with status := "cancelled", canceledAt := some 5 }
        : AssignmentRec).canceledReason = none := by
  refine ⟨by decide, by decide, by decide⟩

/-- C6 (amended): an authorized transition to `cancelled` on a non-cancelled
assignment sets `canceledAt := now`, clears `completedAt`, and sets
`canceledReason` exactly when a non-empty one is supplied (preserving the
old value otherwise); transitions to any status other than `cancelled` and
`completed` leave `canceledAt`, `completedAt` and `canceledReason`
untouched. -/
theorem c6_cancel_transition_effects (e : AssignmentRec) (te : String → Bool)
    (body : Payload) (now : Nat) (hnc : e.status ≠ "cancelled") :
    (∀ sub role, (role = "admin" ∨ role = "repair") →
        adminSchemaOk (normalizeRequestBody body) →
        (∀ t, body.technicianId = some t → te t = true) →
        (normalizeRequestBody body).status = some "cancelled" →
        patchAssignment ⟨sub, role⟩ (some e) te body now
          = .ok (applyCancel e (normalizeRequestBody body) now))
  ∧ (∀ sub, sameTeam e sub →
        supSchemaOk (normalizeRequestBody body) →
        firstForbiddenSup (normalizeRequestBody body) = none →
        (normalizeRequestBody body).status = some "cancelled" →
        patchAssignment ⟨sub, "supervisor"⟩ (some e) te body now
          = .ok (applyCancel e (normalizeRequestBody body) now))
  ∧ ((applyCancel e (normalizeRequestBody body) now).canceledAt = some now
      ∧ (applyCancel e (normalizeRequestBody body) now).completedAt = none
      ∧ (applyCancel e (normalizeRequestBody body) now).status = "cancelled"
      ∧ (∀ r, body.canceledReason = some r → r ≠ "" →
          (applyCancel e (normalizeRequestBody body) now).canceledReason = some r)
      ∧ (body.canceledReason = none →
          (applyCancel e (normalizeRequestBody body) now).canceledReason
            = e.canceledReason))
  ∧ (∀ u s a', (normalizeRequestBody body).status = some s →
        s ≠ "cancelled" → s ≠ "completed" →
        patchAssignment u (some e) te body now = .ok a' →
        a'.canceledAt = e.canceledAt ∧ a'.completedAt = e.completedAt
          ∧ a'.canceledReason = e.canceledReason) := by
  have hrest := normalize_preserves_rest body
  refine ⟨?_, ?_, ?_, ?_⟩
  · intro sub role hrole hsch hte hst
    rw [patch_admin_eq sub role e te body now hrole,
      adminBranch_eq_core e te _ now hsch
        (by intro t ht; exact hte t (by rw [← hrest.2.2.1]; exact ht)),
      adminCore_cancel e _ now hst hnc]
  · intro sub hteam hsch hff hst
    rw [patch_sup_eq sub e te body now hteam,
      supBranch_eq_core e _ now hsch hff, if_pos hst, if_neg hnc]
  · refine ⟨rfl, rfl, rfl, ?_, ?_⟩
    · intro r hr hrne
      have : (normalizeRequestBody body).canceledReason = some r := by
        rw [hrest.2.2.2.2.2.1]; exact hr
      simp [applyCancel, this, hrne]
    · intro hr
      have : (normalizeRequestBody body).canceledReason = none := by
        rw [hrest.2.2.2.2.2.1]; exact hr
      simp [applyCancel, this]
  · intro u s a' hs hs1 hs2 h
    have hne : (normalizeRequestBody body).status ≠ some "cancelled" := by
      rw [hs]; intro hx; exact hs1 (by injection hx)
    rcases patch_ok_shapes u e te body now a' h with ⟨ha, -⟩ | ⟨hc, -⟩ | ⟨ha, -⟩ | ⟨ha, -⟩
    · subst ha
      refine ⟨rfl, ?_, rfl⟩
      simp [applyTechUpdate, hs, hs2]
    · exact absurd hc hne
    · subst ha
      refine ⟨rfl, ?_, rfl⟩
      simp [applyAdminUpdate, hs, hs2]
    · subst ha
      exact ⟨rfl, rfl, rfl⟩

/-- Witness for `c6_cancel_transition_effects`: Scenario C — S1 cancels the
own-team pending assignment with reason `rescheduled`. -/
theorem c6_cancel_transition_effects_witness :
    patchAssignment ⟨"S1", "supervisor"⟩ (some asgBase) anyTech
      { status := some "cancelled", canceledReason := some "rescheduled" } 4
      = .ok (applyCancel asgBase
          (normalizeRequestBody
            { status := some "cancelled", canceledReason := some "rescheduled" }) 4) :=
  (c6_cancel_transition_effects asgBase anyTech
      { status := some "cancelled", canceledReason := some "rescheduled" } 4
      (by decide)).2.1 "S1" (by decide) (by decide) (by decide) (by decide)

/-! ### C7 -/

/-- C7: a tech mutation on an own assignment whose (schema-valid) payload
touches a forbidden field is answered `Forbidden` naming the first such
field in the declaration order
priority, scheduledDate, technicianId, propertyId, canceledReason,
canceledAt (the order of `firstForbiddenTech`) — regardless of the current
status and of whether the requested transition would be legal, since the
loop runs before the transition table is consulted. -/
theorem c7_forbidden_field_precedence (sub : String) (e : AssignmentRec)
    (te : String → Bool) (body : Payload) (now : Nat) (f : String)
    (hown : e.technicianId = sub)
    (hsch : techSchemaOk (normalizeRequestBody body))
    (hff : firstForbiddenTech (normalizeRequestBody body) = some f) :
    patchAssignment ⟨sub, "tech"⟩ (some e) te body now
      = .forbidden (msgTechField f) := by
  have hc : (normalizeRequestBody body).status ≠ some "cancelled" := by
    intro hx
    unfold techSchemaOk at hsch
    rw [hx] at hsch
    simp [enumOk] at hsch
  rw [patch_tech_eq sub e te body now hown]
  unfold techBranch
  rw [if_neg hc, if_neg (not_not_intro hsch), hff]

/-- Witness for `c7_forbidden_field_precedence`: the example given in the spec —
tech payload `{status: in_progress, priority: high}` on the own pending
assignment yields `Forbidden(priority)` although `pending → in_progress`
alone is legal. -/
theorem c7_forbidden_field_precedence_witness :
    patchAssignment ⟨"T1", "tech"⟩ (some asgBase) anyTech
      { status := some "in_progress", priority := some "high" } 1
      = .forbidden (msgTechField "priority") :=
  c7_forbidden_field_precedence "T1" asgBase anyTech
    { status := some "in_progress", priority := some "high" } 1 "priority"
    (by decide) (by decide) (by decide)

/-! ### C9 -/

/-- C9: the handler's outcome on a payload with status spelled `canceled` is
identical — same verdict, same applied fields — to its outcome on the same
payload spelled `cancelled`, for every identity, every stored assignment and
every remaining payload content; and whenever a mutation whose target status
is either spelling succeeds, the stored status is the canonical
`cancelled`. -/
theorem c9_spelling_equivalence (u : UserCtx) (e? : Option AssignmentRec)
    (te : String → Bool) (body : Payload) (now : Nat) :
    patchAssignment u e? te { body with status := some "canceled" } now
      = patchAssignment u e? te { body with status := some "cancelled" } now
    ∧ (∀ e a', e? = some e →
        (body.status = some "cancelled" ∨ body.status = some "canceled") →
        patchAssignment u e? te body now = .ok a' → a'.status = "cancelled") := by
  constructor
  · have : normalizeRequestBody { body with status := some "canceled" }
        = normalizeRequestBody { body with status := some "cancelled" } := by
      simp [normalizeRequestBody, normalizeStatus]
    unfold patchAssignment
    cases e? with
    | none => rfl
    | some e => rw [this]
  · intro e a' he hsp h
    subst he
    have hst := normalize_cancel_status body hsp
    rcases patch_ok_shapes u e te body now a' h with ⟨-, hne⟩ | ⟨-, hc⟩ | ⟨-, hne⟩ | ⟨-, hne⟩
    · exact absurd hst hne
    · rcases hc with ⟨ha, hece⟩ | ha
      · rw [ha]; exact hece
      · rw [ha]; rfl
    · exact absurd hst hne
    · exact absurd hst hne

/-- Witness for `c9_spelling_equivalence` at a supervisor cancel of the
pending own-team assignment. -/
theorem c9_spelling_equivalence_witness :
    patchAssignment supS1 (some asgBase) anyTech { status := some "canceled" } 4
        = patchAssignment supS1 (some asgBase) anyTech { status := some "cancelled" } 4
      ∧ ({ asgBase with status := "cancelled", canceledAt := some 4 }
          : AssignmentRec).status = "cancelled" :=
  ⟨(c9_spelling_equivalence supS1 (some asgBase) anyTech {} 4).1,
    (c9_spelling_equivalence supS1 (some asgBase) anyTech
        { status := some "canceled" } 4).2 asgBase
      { asgBase with status := "cancelled", canceledAt := some 4 } rfl
      (Or.inr rfl) (by decide)⟩

/-! ### C8 -/

theorem patchTechnician_sup_eq (sub : String) (tu : TechUserRec) (p : TProfile)
    (b : TPayload) (hp : tu.profile = some p) (hsch : tSchemaOk b) :
    patchTechnician ⟨sub, "supervisor"⟩ (some tu) b
      = (if ¬ (p.supervisorId = some sub) ∧ ¬ (p.supervisorId = none) then
           .forbiddenT msgSupScope
         else if p.supervisorId = none ∧ claimBlocked sub b.supervisorId then
           .forbiddenT msgClaimOnly
         else if p.supervisorId = some sub ∧ reassignBlocked sub b.supervisorId then
           .forbiddenT msgNoReassign
         else .okT tu.id tu.email tu.role (applyTProfileFull p b)) := by
  unfold patchTechnician
  rw [if_neg (not_not_intro hsch)]
  simp only [hp]
  rw [if_neg (by decide : ¬ (("supervisor" : String) = "tech"))]
  simp

/-- C8: for a supervisor updating an existing technician profile with a
schema-valid payload: a successful update entails both that the profile's
`supervisorId` was null (claim) or the supervisor's own id, and that any
`supervisorId` in the payload is the supervisor's own id or null; a profile
outside that scope is answered `Forbidden`, and so is any payload setting
`supervisorId` to a value that is neither the supervisor's own id nor
null. -/
theorem c8_supervisor_profile_rules (sub : String) (tu : TechUserRec)
    (p : TProfile) (b : TPayload)
    (hp : tu.profile = some p) (hsch : tSchemaOk b) :
    (∀ i em r p', patchTechnician ⟨sub, "supervisor"⟩ (some tu) b = .okT i em r p' →
        (p.supervisorId = none ∨ p.supervisorId = some sub)
        ∧ (∀ v, b.supervisorId = some v → v = none ∨ v = some sub))
  ∧ (p.supervisorId ≠ none → p.supervisorId ≠ some sub →
      patchTechnician ⟨sub, "supervisor"⟩ (some tu) b = .forbiddenT msgSupScope)
  ∧ (∀ v, b.supervisorId = some v → v ≠ none → v ≠ some sub →
      ∃ m, patchTechnician ⟨sub, "supervisor"⟩ (some tu) b = .forbiddenT m) := by
  rw [patchTechnician_sup_eq sub tu p b hp hsch]
  refine ⟨?_, ?_, ?_⟩
  · intro i em r p' h
    by_cases hsc : ¬ (p.supervisorId = some sub) ∧ ¬ (p.supervisorId = none)
    · rw [if_pos hsc] at h
      exact TResult.noConfusion h
    · rw [if_neg hsc] at h
      have hscope : p.supervisorId = none ∨ p.supervisorId = some sub := by
        by_cases h1 : p.supervisorId = none
        · exact Or.inl h1
        · by_cases h2 : p.supervisorId = some sub
          · exact Or.inr h2
          · exact absurd ⟨h2, h1⟩ hsc
      refine ⟨hscope, ?_⟩
      intro v hv
      by_cases hun : p.supervisorId = none
      · by_cases hcb : claimBlocked sub b.supervisorId = true
        · rw [if_pos ⟨hun, hcb⟩] at h
          exact TResult.noConfusion h
        · unfold claimBlocked at hcb
          rw [hv] at hcb
          simp at hcb
          exact Or.inr hcb
      · have hown : p.supervisorId = some sub := hscope.resolve_left hun
        rw [if_neg (by intro hx; exact hun hx.1)] at h
        by_cases hrb : reassignBlocked sub b.supervisorId = true
        · rw [if_pos ⟨hown, hrb⟩] at h
          exact TResult.noConfusion h
        · unfold reassignBlocked at hrb
          rw [hv] at hrb
          simp only [decide_eq_true_eq, not_and_or, not_not] at hrb
          exact hrb
  · intro h1 h2
    rw [if_pos ⟨h2, h1⟩]
  · intro v hv hvn hvs
    by_cases hsc : ¬ (p.supervisorId = some sub) ∧ ¬ (p.supervisorId = none)
    · rw [if_pos hsc]
      exact ⟨msgSupScope, rfl⟩
    · rw [if_neg hsc]
      by_cases hun : p.supervisorId = none
      · rw [if_pos ⟨hun, by unfold claimBlocked; rw [hv]; simpa using hvs⟩]
        exact ⟨msgClaimOnly, rfl⟩
      · have hown : p.supervisorId = some sub := by
          by_cases h2 : p.supervisorId = some sub
          · exact h2
          · exact absurd ⟨h2, hun⟩ hsc
        rw [if_neg (by intro hx; exact hun hx.1),
          if_pos ⟨hown, by unfold reassignBlocked; rw [hv]; simp [hvn, hvs]⟩]
        exact ⟨msgNoReassign, rfl⟩

/-- Witness for `c8_supervisor_profile_rules`: S1 touching a profile owned
by S2 is answered the scope `Forbidden`, and claiming an unassigned tech for
S2 (not the id of S1) is also `Forbidden`. -/
theorem c8_supervisor_profile_rules_witness :
    patchTechnician ⟨"S1", "supervisor"⟩
        (some ⟨"T9", "t9", "tech", some ⟨some "S2", true, none, none, none⟩⟩) {}
        = .forbiddenT msgSupScope ∧
      ∃ m, patchTechnician ⟨"S1", "supervisor"⟩
        (some ⟨"T8", "t8", "tech", some ⟨none, true, none, none, none⟩⟩)
        { supervisorId := some (some "S2") } = .forbiddenT m :=
  ⟨(c8_supervisor_profile_rules "S1"
      ⟨"T9", "t9", "tech", some ⟨some "S2", true, none, none, none⟩⟩
      ⟨some "S2", true, none, none, none⟩ {} rfl (by decide)).2.1
      (by decide) (by decide),
    (c8_supervisor_profile_rules "S1"
      ⟨"T8", "t8", "tech", some ⟨none, true, none, none, none⟩⟩
      ⟨none, true, none, none, none⟩ { supervisorId := some (some "S2") } rfl
      (by decide)).2.2 (some "S2") rfl (by decide) (by decide)⟩

/-! ### C10 -/

/-- C10: a list request without `includeCanceled=true` and without a status
filter never matches a cancelled assignment; with `includeCanceled=true` (and
no status filter) or with an explicit status filter in either spelling,
cancelled assignments satisfying the remaining filters match.  Both the main
GET /api/assignments clause and the GET /api/assignments/created clause are
covered. -/
theorem c10_cancelled_visibility (u : UserCtx) (q : ListQuery)
    (ic : Option String) (a : AssignmentRec) :
    (q.includeCanceled ≠ some "true" → q.status = none →
        matchesWhere (buildListWhere u q) a = true → a.status ≠ "cancelled")
  ∧ ((q.status = some "cancelled" ∨ q.status = some "canceled"
        ∨ (q.includeCanceled = some "true" ∧ q.status = none)) →
      a.status = "cancelled" → restMatches (buildListWhere u q) a = true →
      matchesWhere (buildListWhere u q) a = true)
  ∧ (ic ≠ some "true" → matchesWhere (buildCreatedWhere u ic) a = true →
      a.status ≠ "cancelled")
  ∧ (ic = some "true" → a.status = "cancelled" →
      restMatches (buildCreatedWhere u ic) a = true →
      matchesWhere (buildCreatedWhere u ic) a = true) := by
  refine ⟨?_, ?_, ?_, ?_⟩
  · intro hic hqs hm
    have hw : (buildListWhere u q).status = some (.neS "cancelled") := by
      simp [buildListWhere, hqs, hic]
    unfold matchesWhere at hm
    rw [hw] at hm
    have := (Bool.and_eq_true _ _).mp hm |>.1
    simpa [statusCondHolds] using this
  · intro hq ha hrest
    have hw : statusCondHolds (buildListWhere u q).status a.status = true := by
      rcases hq with hq | hq | ⟨hic, hqs⟩
      · simp [buildListWhere, hq, normalizeStatus, statusCondHolds, ha]
      · simp [buildListWhere, hq, normalizeStatus, statusCondHolds, ha]
      · simp [buildListWhere, hqs, hic, statusCondHolds]
    unfold matchesWhere
    rw [hw, hrest]
    rfl
  · intro hic hm
    have hw : (buildCreatedWhere u ic).status = some (.neS "cancelled") := by
      simp [buildCreatedWhere, hic]
    unfold matchesWhere at hm
    rw [hw] at hm
    have := (Bool.and_eq_true _ _).mp hm |>.1
    simpa [statusCondHolds] using this
  · intro hic ha hrest
    unfold matchesWhere
    have hw : (buildCreatedWhere u ic).status = none := by
      simp [buildCreatedWhere, hic]
    rw [hw, hrest]
    rfl

/-- Witness for `c10_cancelled_visibility`: for the cancelled own
assignment — the default listing hides it, `includeCanceled=true` and the
`canceled`-spelled status filter both surface it. -/
theorem c10_cancelled_visibility_witness :
    (matchesWhere (buildListWhere techT1 {}) asgCancelled = true →
        asgCancelled.status ≠ "cancelled") ∧
      matchesWhere (buildListWhere techT1 { includeCanceled := some "true" })
        asgCancelled = true ∧
      matchesWhere (buildListWhere techT1 { status := some "canceled" })
        asgCancelled = true :=
  ⟨(c10_cancelled_visibility techT1 {} none asgCancelled).1 (by decide) (by decide),
    (c10_cancelled_visibility techT1 { includeCanceled := some "true" } none
        asgCancelled).2.1 (Or.inr (Or.inr ⟨rfl, rfl⟩)) (by decide) (by decide),
    (c10_cancelled_visibility techT1 { status := some "canceled" } none
        asgCancelled).2.1 (Or.inr (Or.inl rfl)) (by decide) (by decide)⟩

end ApiV2
